import Mathlib

/-!
Shallow embedding of `src/scripts/scraper.py` (job scraper: criteria
matching, text cleaning, URL deduplication, e-mail rendering, output
emission), together with theorems settling the specification claims.

Python strings are modelled as Lean `String` (or `List Char` where the
Python code works character-wise); Python `str.lower`, `str.strip`,
`str.split()`, `str.isdigit`, substring `in`, and `str.replace(c, "")`
are modelled by the `py*` helpers below.  The float division
`salary_num / 12` is modelled exactly over `ℚ`.
-/

/-- Python `pat in s` (substring containment). -/
def strIn (pat s : String) : Bool := decide (pat.data <:+: s.data)

/-- Python `s.lower()` (ASCII case folding). -/
def pyLower (s : String) : String := ⟨s.data.map Char.toLower⟩

/-- Python `s.strip()`: drop leading and trailing whitespace. -/
def pyStrip (s : String) : String :=
  ⟨((s.data.dropWhile Char.isWhitespace).reverse.dropWhile Char.isWhitespace).reverse⟩

/-- Python `s.split()` on a character list: split on whitespace runs,
dropping empty fields.  `acc` holds the (reversed) current field. -/
def pySplitAux (acc : List Char) : List Char → List (List Char)
  | [] => if acc = [] then [] else [acc.reverse]
  | c :: rest =>
    if c.isWhitespace then
      (if acc = [] then [] else [acc.reverse]) ++ pySplitAux [] rest
    else
      pySplitAux (c :: acc) rest

/-- Python `s.split()`. -/
def pySplit (l : List Char) : List (List Char) := pySplitAux [] l

/-- Python `' '.join(parts)`. -/
def joinSp : List (List Char) → List Char
  | [] => []
  | [w] => w
  | w :: ws => w ++ ' ' :: joinSp ws

/-- Python `w.isdigit()`: nonempty and all decimal digits. -/
def pyIsDigit (w : List Char) : Bool := !w.isEmpty && w.all Char.isDigit

/-- Python `int(w)` for a string of decimal digits. -/
def pyInt (w : List Char) : ℕ := w.foldl (fun n c => 10 * n + (c.toNat - 48)) 0

/-- The run configuration (scraper.py lines 8-11): `MIN_SALARY`,
`JOB_TITLES`, `KEYWORDS` and `REGION`, read once from the environment.
`JOB_TITLES` and `KEYWORDS` are the comma-split lists. -/
structure Config where
  MIN_SALARY : ℤ
  JOB_TITLES : List String
  KEYWORDS : List String
  REGION : String

/-- A job record: the dictionary fields the scraper reads, with the
`dict.get` default (the empty string) already applied. -/
structure Job where
  title : String := ""
  description : String := ""
  company : String := ""
  location : String := ""
  salary : String := ""
  url : String := ""
  source : String := ""
  posted_date : String := ""
deriving DecidableEq, Repr

/-- Asia-related location keywords (scraper.py lines 14-19). -/
def ASIA_LOCATIONS : List String :=
  ["singapore", "india", "japan", "south korea", "korea", "thailand",
   "vietnam", "malaysia", "indonesia", "philippines", "pakistan",
   "bangladesh", "sri lanka", "hong kong", "china", "taiwan",
   "asia", "asiapac", "apac", "sg", "jp", "in", "th", "vn", "my"]

/-- Gazetteer match of scraper.py line 52: some `ASIA_LOCATIONS` token
is a substring of the lower-cased location. -/
def asiaLocationMatch (job : Job) : Bool :=
  ASIA_LOCATIONS.any (fun loc => strIn loc (pyLower job.location))

/-- Title gate (scraper.py lines 40-43): some configured job-title
token, stripped, is a substring of the lower-cased title. -/
def titleGate (cfg : Config) (job : Job) : Bool :=
  cfg.JOB_TITLES.any (fun jt => strIn (pyStrip jt) (pyLower job.title))

/-- The lower-cased composite text of scraper.py line 38:
`f"{title} {description} {company} {location}"`. -/
def compositeText (job : Job) : String :=
  pyLower job.title ++ " " ++ pyLower job.description ++ " " ++
    pyLower job.company ++ " " ++ pyLower job.location

/-- Keyword gate (scraper.py lines 45-48): some configured keyword
token, stripped, is a substring of the composite text. -/
def keywordGate (cfg : Config) (job : Job) : Bool :=
  cfg.KEYWORDS.any (fun kw => strIn (pyStrip kw) (compositeText job))

/-- Region gate (scraper.py lines 50-57).  When `REGION` is `"asia"`,
the block returns `False` exactly when the lower-cased location
matches no gazetteer token and contains `"remote"`. -/
def regionGate (cfg : Config) (job : Job) : Bool :=
  if pyLower cfg.REGION = "asia" then
    let location := pyLower job.location
    let location_match := ASIA_LOCATIONS.any (fun loc => strIn loc location)
    if !location_match then
      if strIn "remote" location &&
          !(ASIA_LOCATIONS.any (fun loc => strIn loc location)) then
        false
      else
        true
    else
      true
  else
    true

/-- The digit tokens parsed from a salary string (scraper.py line 64):
`[int(s) for s in salary_str.replace('$','').replace(',','').split() if s.isdigit()]`. -/
def salaryNumbers (salary_str : String) : List ℕ :=
  ((pySplit ((salary_str.data.filter (fun c => c ≠ '$')).filter
      (fun c => c ≠ ','))).filter pyIsDigit).map pyInt

/-- The monthly salary figure (scraper.py lines 66-69): the minimum of
the parsed numbers, divided by 12 when it exceeds 100000.  The Python
float division is modelled exactly over `ℚ`. -/
def monthlySalary (n : ℕ) (ns : List ℕ) : ℚ :=
  let salary_num := ns.foldl Nat.min n
  if salary_num > 100000 then (salary_num : ℚ) / 12 else (salary_num : ℚ)

/-- Salary gate (scraper.py lines 59-73): evaluated only when the
salary string is nonempty and not (case-insensitively) "not
specified"; rejects exactly when some digit token parsed and the
monthly figure is below `MIN_SALARY`.  (The `try`/`except` in the
source is dead: `int` is only applied to `isdigit` tokens.) -/
def salaryGate (cfg : Config) (job : Job) : Bool :=
  if job.salary ≠ "" ∧ pyLower job.salary ≠ "not specified" then
    match salaryNumbers job.salary with
    | [] => true
    | n :: ns =>
      if monthlySalary n ns < (cfg.MIN_SALARY : ℚ) then false else true
  else
    true

/-- `matches_criteria` (scraper.py lines 32-75): the four gates in
source order, each early-returning `False`. -/
def matches_criteria (cfg : Config) (job : Job) : Bool :=
  if !titleGate cfg job then false
  else if !keywordGate cfg job then false
  else if !regionGate cfg job then false
  else salaryGate cfg job

/-- Removal of HTML tags (scraper.py line 29):
`re.sub(r'<[^>]+>', '', text)`, as a one-pass automaton.  At a `'<'`
the regex matches one or more non-`'>'` characters followed by the
first subsequent `'>'`; matches are removed left to right,
non-overlapping.  State `some buf` means we are after an unresolved
`'<'` with the (reversed) non-`'>'` characters read so far in `buf`:
a `'>'` with nonempty `buf` completes a match (dropped); a `'>'` with
empty `buf` means the literal `"<>"`, which the pattern cannot match
(`[^>]+` needs a character), so it is emitted; at the end of input an
unresolved `'<'` is emitted literally — no `'>'` remains, so neither
this `'<'` nor any buffered one can start a match. -/
def removeTagsAux : Option (List Char) → List Char → List Char
  | none, [] => []
  | some buf, [] => '<' :: buf.reverse
  | none, c :: rest =>
    if c = '<' then removeTagsAux (some []) rest
    else c :: removeTagsAux none rest
  | some buf, c :: rest =>
    if c = '>' then
      if buf = [] then '<' :: '>' :: removeTagsAux none rest
      else removeTagsAux none rest
    else
      removeTagsAux (some (c :: buf)) rest

/-- `re.sub(r'<[^>]+>', '', ·)` on a character list. -/
def removeTags (l : List Char) : List Char := removeTagsAux none l

/-- `clean_text` (scraper.py lines 21-30): empty for falsy input;
otherwise `' '.join(text.split())` followed by HTML-tag removal.
(A Python `None` argument is modelled as the empty string, the other
falsy `str`-typed input.) -/
def clean_text (text : String) : String :=
  if text = "" then ""
  else ⟨removeTags (joinSp (pySplit text.data))⟩

/-- Claim C9's literal reading of the whitespace step: EVERY maximal
whitespace run — leading and trailing runs included — becomes one
space.  `prevWS` records whether the previous character was
whitespace. -/
def squeezeAux (prevWS : Bool) : List Char → List Char
  | [] => []
  | c :: rest =>
    if c.isWhitespace then
      if prevWS then squeezeAux true rest else ' ' :: squeezeAux true rest
    else
      c :: squeezeAux false rest

/-- The normalizer as claim C9 words it: whitespace runs collapsed to
single spaces, then HTML-tag substrings removed. -/
def spec_normalize (text : String) : String :=
  if text = "" then ""
  else ⟨removeTags (squeezeAux false text.data)⟩

mutual
/-- Interior-collapsing automaton, inside a word: copy characters; on
whitespace, defer to `tcSpace`. -/
def tcWord : List Char → List Char
  | [] => []
  | c :: rest => if c.isWhitespace then tcSpace rest else c :: tcWord rest

/-- Interior-collapsing automaton, inside a whitespace run that
follows a word: emit one space only if another word follows (so a
trailing run is dropped). -/
def tcSpace : List Char → List Char
  | [] => []
  | c :: rest => if c.isWhitespace then tcSpace rest else ' ' :: c :: tcWord rest
end

/-- Whitespace normalization as the code actually behaves: leading
whitespace dropped, interior runs collapsed to one space, trailing
runs dropped. -/
def trimCollapse (l : List Char) : List Char :=
  tcWord (l.dropWhile Char.isWhitespace)

/-- The plain-text no-jobs sentence (scraper.py line 220). -/
def noJobsText : String := "No jobs matching your criteria found today."

/-- The HTML no-jobs sentence (scraper.py line 243). -/
def noJobsHtml : String := "<p>No jobs matching your criteria found today.</p>"

/-- Header of the plain-text digest (scraper.py lines 222-224);
`today` stands for `datetime.now().strftime('%Y-%m-%d')`. -/
def bodyHeader (today : String) (n : ℕ) : String :=
  "# 🎯 Job Opportunities Found!\n\n" ++
  "Found **" ++ toString n ++ "** matching job(s) on " ++ today ++ "\n\n" ++
  "---\n\n"

/-- One numbered plain-text section (scraper.py lines 226-236). -/
def jobSection (idx : ℕ) (job : Job) : String :=
  "## " ++ toString idx ++ ". " ++ job.title ++ "\n" ++
  "**Company:** " ++ job.company ++ "\n" ++
  "**Location:** " ++ job.location ++ "\n" ++
  "**Salary:** " ++ job.salary ++ "\n" ++
  "**Source:** " ++ job.source ++ "\n" ++
  (if job.posted_date ≠ "" then "**Posted:** " ++ job.posted_date ++ "\n" else "") ++
  "**Description:** " ++ job.description ++ "...\n" ++
  "**Link:** " ++ job.url ++ "\n\n" ++
  "---\n\n"

/-- `format_email_body` (scraper.py lines 217-238). -/
def formatEmailBody (today : String) (jobs : List Job) : String :=
  if jobs = [] then noJobsText
  else jobs.enum.foldl (fun body p => body ++ jobSection (p.1 + 1) p.2)
        (bodyHeader today jobs.length)

/-- Header of the HTML digest (scraper.py lines 245-247). -/
def htmlHeader (today : String) (n : ℕ) : String :=
  "<h1>🎯 Job Opportunities Found!</h1>\n" ++
  "<p>Found <strong>" ++ toString n ++ "</strong> matching job(s) on " ++
    today ++ "</p>\n" ++
  "<hr>\n"

/-- One numbered HTML section (scraper.py lines 249-259). -/
def htmlSection (idx : ℕ) (job : Job) : String :=
  "<h2>" ++ toString idx ++ ". " ++ job.title ++ "</h2>\n" ++
  "<p><strong>Company:</strong> " ++ job.company ++ "</p>\n" ++
  "<p><strong>Location:</strong> " ++ job.location ++ "</p>\n" ++
  "<p><strong>Salary:</strong> " ++ job.salary ++ "</p>\n" ++
  "<p><strong>Source:</strong> " ++ job.source ++ "</p>\n" ++
  (if job.posted_date ≠ "" then
    "<p><strong>Posted:</strong> " ++ job.posted_date ++ "</p>\n" else "") ++
  "<p><strong>Description:</strong> " ++ job.description ++ "...</p>\n" ++
  "<p><a href=\x27" ++ job.url ++ "\x27>View Full Job</a></p>\n" ++
  "<hr>\n"

/-- `format_email_body_html` (scraper.py lines 240-261). -/
def formatEmailBodyHtml (today : String) (jobs : List Job) : String :=
  if jobs = [] then noJobsHtml
  else jobs.enum.foldl (fun body p => body ++ htmlSection (p.1 + 1) p.2)
        (htmlHeader today jobs.length)

/-- One step of the dict comprehension of scraper.py line 277: insert
`j` under key `j.url`, overwriting the value at an existing key
(keeping its position) or appending a new key at the end —
insertion-ordered `dict` semantics. -/
def insertURL (acc : List Job) (j : Job) : List Job :=
  if acc.any (fun k => k.url == j.url) then
    acc.map (fun k => if k.url == j.url then j else k)
  else
    acc ++ [j]

/-- Deduplication (scraper.py lines 276-278):
`list({job['url']: job for job in all_jobs if job['url']}.values())`. -/
def dedupe (jobs : List Job) : List Job :=
  (jobs.filter (fun j => j.url ≠ "")).foldl insertURL []

/-- The last record of `jobs` carrying URL `u`. -/
def lastWithURL (jobs : List Job) (u : String) : Option Job :=
  (jobs.filter (fun k => k.url == u)).getLast?

/-- First record of `l` carrying URL `u` (dict lookup on the model). -/
def findURL (l : List Job) (u : String) : Option Job :=
  l.find? (fun k => k.url == u)

/-- The content `main` (scraper.py lines 282-304) appends to the
`GITHUB_OUTPUT` sink, as a function of the deduplicated job list and
the day's date: the full digest when jobs were found, only the
`found_jobs=false` flag otherwise. -/
def githubOutput (today : String) (unique_jobs : List Job) : String :=
  if unique_jobs ≠ [] then
    "found_jobs=true\n" ++
    "email_body<<EOF\n" ++ formatEmailBody today unique_jobs ++ "\nEOF\n" ++
    "email_body_html<<EOF\n" ++ formatEmailBodyHtml today unique_jobs ++ "\nEOF\n"
  else
    "found_jobs=false\n"

/-! ## Helper lemmas -/

/-- The if-chain of `matches_criteria` is the conjunction of its four
gates. -/
theorem matches_eq (cfg : Config) (job : Job) :
    matches_criteria cfg job =
      (titleGate cfg job &&
        (keywordGate cfg job && (regionGate cfg job && salaryGate cfg job))) := by
  unfold matches_criteria
  cases titleGate cfg job <;> cases keywordGate cfg job <;>
    cases regionGate cfg job <;> simp

/-- With `REGION = "asia"`, the region gate passes exactly when the
location matches the gazetteer or does not contain `"remote"`. -/
theorem regionGate_asia (cfg : Config) (job : Job) (hR : cfg.REGION = "asia") :
    regionGate cfg job =
      (asiaLocationMatch job || !strIn "remote" (pyLower job.location)) := by
  have hlow : pyLower "asia" = "asia" := by decide
  unfold regionGate asiaLocationMatch
  rw [hR, hlow]
  simp only [if_pos rfl]
  cases h1 : ASIA_LOCATIONS.any (fun loc => strIn loc (pyLower job.location)) <;>
    cases h2 : strIn "remote" (pyLower job.location) <;> simp [h1, h2]

/-- `Char.toLower` fixes decimal digits. -/
theorem toLower_of_isDigit (c : Char) (h : c.isDigit = true) : c.toLower = c := by
  simp [Char.isDigit] at h
  obtain ⟨h1, h2⟩ := h
  have h1n : 48 ≤ c.toNat := h1
  have h2n : c.toNat ≤ 57 := h2
  simp [Char.toLower]
  omega

/-- Every character of a `pySplitAux` field comes from the
accumulator or from the input. -/
theorem pySplitAux_subset (l : List Char) :
    ∀ acc w, w ∈ pySplitAux acc l → ∀ c ∈ w, c ∈ acc ∨ c ∈ l := by
  induction l with
  | nil =>
    intro acc w hw c hc
    unfold pySplitAux at hw
    split at hw
    · simp at hw
    · simp at hw
      subst hw
      exact Or.inl (List.mem_reverse.1 hc)
  | cons d rest ih =>
    intro acc w hw c hc
    unfold pySplitAux at hw
    split at hw
    · rcases List.mem_append.1 hw with h | h
      · split at h
        · simp at h
        · simp at h
          subst h
          exact Or.inl (List.mem_reverse.1 hc)
      · rcases ih [] w h c hc with h' | h'
        · simp at h'
        · exact Or.inr (List.mem_cons_of_mem d h')
    · rcases ih (d :: acc) w hw c hc with h' | h'
      · rcases List.mem_cons.1 h' with h'' | h''
        · subst h''
          exact Or.inr (List.mem_cons_self c rest)
        · exact Or.inl h''
      · exact Or.inr (List.mem_cons_of_mem d h')

/-- If the salary parser finds a number, the salary string holds a
digit character. -/
theorem salaryNumbers_digit {s : String} (h : salaryNumbers s ≠ []) :
    ∃ c ∈ s.data, c.isDigit = true := by
  unfold salaryNumbers at h
  set stripped := (s.data.filter (fun c => c ≠ '$')).filter (fun c => c ≠ ',') with hstr
  rcases hL : (pySplit stripped).filter pyIsDigit with _ | ⟨w, ws⟩
  · rw [hL] at h
    simp at h
  · have hwmem : w ∈ (pySplit stripped).filter pyIsDigit := by
      rw [hL]; exact List.mem_cons_self w ws
    have hw1 : w ∈ pySplit stripped := (List.mem_filter.1 hwmem).1
    have hw2 : pyIsDigit w = true := (List.mem_filter.1 hwmem).2
    unfold pyIsDigit at hw2
    rcases hwc : w with _ | ⟨c, cs⟩
    · rw [hwc] at hw2; simp at hw2
    · have hc : c ∈ w := by rw [hwc]; exact List.mem_cons_self c cs
      have hcd : c.isDigit = true := by
        rw [hwc] at hw2
        simp at hw2
        exact hw2.1
      have hcs : c ∈ stripped := by
        rcases pySplitAux_subset stripped [] w hw1 c hc with h' | h'
        · simp at h'
        · exact h'
      have hcsd : c ∈ s.data := by
        rw [hstr] at hcs
        exact (List.mem_filter.1 ((List.mem_filter.1 hcs).1)).1
      exact ⟨c, hcsd, hcd⟩

/-- A salary string that lower-cases to `"not specified"` yields no
digit tokens. -/
theorem lower_not_specified_no_numbers {s : String}
    (h : pyLower s = "not specified") : salaryNumbers s = [] := by
  by_contra hne
  obtain ⟨c, hc, hd⟩ := salaryNumbers_digit hne
  have h2 : s.data.map Char.toLower = "not specified".data := congrArg String.data h
  have h3 : c.toLower ∈ "not specified".data :=
    h2 ▸ List.mem_map_of_mem Char.toLower hc
  rw [toLower_of_isDigit c hd] at h3
  have hall : ∀ x ∈ "not specified".data, x.isDigit = false := by decide
  have := hall c h3
  rw [hd] at this
  cases this

/-! ## Claims about the criteria matcher -/

/-- Claim C1 counterexample: with region "asia", a job whose
lower-cased location ("london") contains no gazetteer token is
nevertheless accepted by `matches_criteria`, refuting "every job whose
lower-cased location contains no gazetteer token is rejected". -/
theorem claim_C1_counterexample :
    asiaLocationMatch
      { title := "Software Engineer, AI", company := "Acme",
        location := "London", description := "Build AI systems" } = false ∧
    matches_criteria ⟨4000, ["software engineer"], ["ai"], "asia"⟩
      { title := "Software Engineer, AI", company := "Acme",
        location := "London", description := "Build AI systems" } = true := by
  constructor
  · decide
  · decide

/-- Claim C1 (amended): with region "asia", the region gate is true
iff the lower-cased location contains a gazetteer token OR does not
contain "remote"; every job whose lower-cased location contains
"remote" but no gazetteer token is rejected regardless of the other
fields. -/
theorem claim_C1 (cfg : Config) (job : Job) (hR : cfg.REGION = "asia") :
    (regionGate cfg job = true ↔
      (asiaLocationMatch job = true ∨ strIn "remote" (pyLower job.location) = false)) ∧
    (asiaLocationMatch job = false → strIn "remote" (pyLower job.location) = true →
      matches_criteria cfg job = false) := by
  constructor
  · rw [regionGate_asia cfg job hR]
    cases h1 : asiaLocationMatch job <;>
      cases h2 : strIn "remote" (pyLower job.location) <;> simp [h1, h2]
  · intro h1 h2
    rw [matches_eq, regionGate_asia cfg job hR, h1, h2]
    simp

/-- Witness for C1 at a concrete input: the hypotheses hold for the
configuration with region "asia" and a job located "Remote Worldwide",
and the amended conclusions follow. -/
theorem claim_C1_witness :
    (⟨4000, ["software engineer"], ["ai"], "asia"⟩ : Config).REGION = "asia" ∧
    asiaLocationMatch ({ location := "Remote Worldwide" } : Job) = false ∧
    strIn "remote" (pyLower ({ location := "Remote Worldwide" } : Job).location) = true ∧
    matches_criteria ⟨4000, ["software engineer"], ["ai"], "asia"⟩
      { location := "Remote Worldwide" } = false :=
  ⟨rfl, by decide, by decide,
    (claim_C1 ⟨4000, ["software engineer"], ["ai"], "asia"⟩
      { location := "Remote Worldwide" } rfl).2 (by decide) (by decide)⟩

/-- Claim C5: with region "asia", a job located exactly "Remote" is
rejected by `matches_criteria` whatever its other fields, while for a
job located "Remote, Singapore" the region gate passes. -/
theorem claim_C5 (cfg : Config) (job job2 : Job) (hR : cfg.REGION = "asia")
    (hL : job.location = "Remote") (hL2 : job2.location = "Remote, Singapore") :
    matches_criteria cfg job = false ∧ regionGate cfg job2 = true := by
  constructor
  · have h1 : asiaLocationMatch job = false := by
      unfold asiaLocationMatch
      rw [hL]
      decide
    have h2 : strIn "remote" (pyLower job.location) = true := by
      rw [hL]
      decide
    rw [matches_eq, regionGate_asia cfg job hR, h1, h2]
    simp
  · rw [regionGate_asia cfg job2 hR]
    unfold asiaLocationMatch
    rw [hL2]
    decide

/-- Witness for C5 at concrete inputs. -/
theorem claim_C5_witness :
    (⟨4000, ["software engineer"], ["ai"], "asia"⟩ : Config).REGION = "asia" ∧
    ({ location := "Remote" } : Job).location = "Remote" ∧
    ({ location := "Remote, Singapore" } : Job).location = "Remote, Singapore" ∧
    matches_criteria ⟨4000, ["software engineer"], ["ai"], "asia"⟩
      { location := "Remote" } = false ∧
    regionGate ⟨4000, ["software engineer"], ["ai"], "asia"⟩
      { location := "Remote, Singapore" } = true :=
  ⟨rfl, rfl, rfl,
    (claim_C5 ⟨4000, ["software engineer"], ["ai"], "asia"⟩
      { location := "Remote" } { location := "Remote, Singapore" } rfl rfl rfl).1,
    (claim_C5 ⟨4000, ["software engineer"], ["ai"], "asia"⟩
      { location := "Remote" } { location := "Remote, Singapore" } rfl rfl rfl).2⟩

/-- Claim C10 (implicit): with region "asia", a job whose lower-cased
location contains neither a gazetteer token nor "remote" is not
rejected by the region gate: `matches_criteria` returns true whenever
the title, keyword and salary gates pass. -/
theorem claim_C10 (cfg : Config) (job : Job) (hR : cfg.REGION = "asia")
    (hGaz : asiaLocationMatch job = false)
    (hRem : strIn "remote" (pyLower job.location) = false)
    (hT : titleGate cfg job = true) (hK : keywordGate cfg job = true)
    (hS : salaryGate cfg job = true) :
    matches_criteria cfg job = true := by
  rw [matches_eq, regionGate_asia cfg job hR, hGaz, hRem, hT, hK, hS]
  simp

/-- Witness for C10: the job located "London" from the C1
counterexample, with all gate hypotheses discharged concretely. -/
theorem claim_C10_witness :
    (⟨4000, ["software engineer"], ["ai"], "asia"⟩ : Config).REGION = "asia" ∧
    asiaLocationMatch
      { title := "Software Engineer, AI", company := "Acme",
        location := "London", description := "Build AI systems" } = false ∧
    strIn "remote" (pyLower "London") = false ∧
    titleGate ⟨4000, ["software engineer"], ["ai"], "asia"⟩
      { title := "Software Engineer, AI", company := "Acme",
        location := "London", description := "Build AI systems" } = true ∧
    keywordGate ⟨4000, ["software engineer"], ["ai"], "asia"⟩
      { title := "Software Engineer, AI", company := "Acme",
        location := "London", description := "Build AI systems" } = true ∧
    salaryGate ⟨4000, ["software engineer"], ["ai"], "asia"⟩
      { title := "Software Engineer, AI", company := "Acme",
        location := "London", description := "Build AI systems" } = true ∧
    matches_criteria ⟨4000, ["software engineer"], ["ai"], "asia"⟩
      { title := "Software Engineer, AI", company := "Acme",
        location := "London", description := "Build AI systems" } = true :=
  ⟨rfl, by decide, by decide, by decide, by decide, by decide,
    claim_C10 ⟨4000, ["software engineer"], ["ai"], "asia"⟩
      { title := "Software Engineer, AI", company := "Acme",
        location := "London", description := "Build AI systems" }
      rfl (by decide) (by decide) (by decide) (by decide) (by decide)⟩

/-- Claim C8: the title gate is the first mandatory gate — if no
stripped configured title token is a substring of the lower-cased
title, `matches_criteria` is false regardless of other fields; and for
a job passing the title gate, if no stripped configured keyword token
is a substring of the composite text, `matches_criteria` is false. -/
theorem claim_C8 (cfg : Config) (job : Job) :
    ((∀ jt ∈ cfg.JOB_TITLES, strIn (pyStrip jt) (pyLower job.title) = false) →
      matches_criteria cfg job = false) ∧
    (titleGate cfg job = true →
      (∀ kw ∈ cfg.KEYWORDS, strIn (pyStrip kw) (compositeText job) = false) →
      matches_criteria cfg job = false) := by
  constructor
  · intro h
    have ht : titleGate cfg job = false := by
      unfold titleGate
      rw [List.any_eq_false]
      intro jt hjt
      simp [h jt hjt]
    rw [matches_eq, ht]
    simp
  · intro ht h
    have hk : keywordGate cfg job = false := by
      unfold keywordGate
      rw [List.any_eq_false]
      intro kw hkw
      simp [h kw hkw]
    rw [matches_eq, ht, hk]
    simp

/-- Witness for C8: a job titled "Plumber" fails the title gate; a
job titled "Software Engineer" with no "ai" anywhere passes the title
gate but fails the keyword gate. -/
theorem claim_C8_witness :
    (∀ jt ∈ (["software engineer"] : List String),
      strIn (pyStrip jt) (pyLower ({ title := "Plumber" } : Job).title) = false) ∧
    matches_criteria ⟨4000, ["software engineer"], ["ai"], "asia"⟩
      { title := "Plumber" } = false ∧
    titleGate ⟨4000, ["software engineer"], ["ai"], "asia"⟩
      { title := "Software Engineer", company := "Acme",
        location := "Singapore", description := "Build systems" } = true ∧
    (∀ kw ∈ (["ai"] : List String),
      strIn (pyStrip kw)
        (compositeText ({ title := "Software Engineer", company := "Acme",
                          location := "Singapore",
                          description := "Build systems" } : Job)) = false) ∧
    matches_criteria ⟨4000, ["software engineer"], ["ai"], "asia"⟩
      { title := "Software Engineer", company := "Acme",
        location := "Singapore", description := "Build systems" } = false :=
  ⟨by decide,
    (claim_C8 ⟨4000, ["software engineer"], ["ai"], "asia"⟩
      { title := "Plumber" }).1 (by decide),
    by decide, by decide,
    (claim_C8 ⟨4000, ["software engineer"], ["ai"], "asia"⟩
      { title := "Software Engineer", company := "Acme",
        location := "Singapore", description := "Build systems" }).2
      (by decide) (by decide)⟩

/-- Claim C4: the salary gate never rejects when the salary is empty,
case-insensitively "not specified", or yields no digit tokens; in
those cases `matches_criteria` is exactly the conjunction of the
title, keyword and region gates. -/
theorem claim_C4 (cfg : Config) (job : Job)
    (h : job.salary = "" ∨ pyLower job.salary = "not specified" ∨
      salaryNumbers job.salary = []) :
    salaryGate cfg job = true ∧
    matches_criteria cfg job =
      (titleGate cfg job && (keywordGate cfg job && regionGate cfg job)) := by
  have hs : salaryGate cfg job = true := by
    unfold salaryGate
    rcases h with h | h | h
    · have hc : ¬(job.salary ≠ "" ∧ pyLower job.salary ≠ "not specified") := by
        simp [h]
      rw [if_neg hc]
    · have hc : ¬(job.salary ≠ "" ∧ pyLower job.salary ≠ "not specified") := by
        simp [h]
      rw [if_neg hc]
    · by_cases hc : job.salary ≠ "" ∧ pyLower job.salary ≠ "not specified"
      · rw [if_pos hc, h]
      · rw [if_neg hc]
  refine ⟨hs, ?_⟩
  rw [matches_eq, hs]
  simp

/-- Witness for C4: a job whose salary reads "Not specified". -/
theorem claim_C4_witness :
    (({ salary := "Not specified" } : Job).salary = "" ∨
      pyLower ({ salary := "Not specified" } : Job).salary = "not specified" ∨
      salaryNumbers ({ salary := "Not specified" } : Job).salary = []) ∧
    salaryGate ⟨4000, ["software engineer"], ["ai"], "asia"⟩
      { salary := "Not specified" } = true ∧
    matches_criteria ⟨4000, ["software engineer"], ["ai"], "asia"⟩
      { salary := "Not specified" } =
      (titleGate ⟨4000, ["software engineer"], ["ai"], "asia"⟩
          { salary := "Not specified" } &&
        (keywordGate ⟨4000, ["software engineer"], ["ai"], "asia"⟩
            { salary := "Not specified" } &&
          regionGate ⟨4000, ["software engineer"], ["ai"], "asia"⟩
            { salary := "Not specified" })) :=
  ⟨Or.inr (Or.inl (by decide)),
    (claim_C4 ⟨4000, ["software engineer"], ["ai"], "asia"⟩
      { salary := "Not specified" } (Or.inr (Or.inl (by decide)))).1,
    (claim_C4 ⟨4000, ["software engineer"], ["ai"], "asia"⟩
      { salary := "Not specified" } (Or.inr (Or.inl (by decide)))).2⟩

/-- Claim C3: when the salary string yields digit tokens, the gate
takes their minimum, divides by 12 above 100000, and rejects below the
configured minimum; "$150,000" parses to 150000, i.e. monthly 12500,
which passes at MIN_SALARY 4000 and makes `matches_criteria` false at
MIN_SALARY 13000. -/
theorem claim_C3 :
    (∀ (cfg : Config) (job : Job) (n : ℕ) (ns : List ℕ),
        salaryNumbers job.salary = n :: ns →
        monthlySalary n ns < (cfg.MIN_SALARY : ℚ) →
        salaryGate cfg job = false ∧ matches_criteria cfg job = false) ∧
    salaryNumbers "$150,000" = [150000] ∧
    monthlySalary 150000 [] = 12500 ∧
    (∀ (cfg : Config) (job : Job), cfg.MIN_SALARY = 4000 → job.salary = "$150,000" →
        salaryGate cfg job = true) ∧
    (∀ (cfg : Config) (job : Job), cfg.MIN_SALARY = 13000 → job.salary = "$150,000" →
        matches_criteria cfg job = false) := by
  have hnum : salaryNumbers "$150,000" = [150000] := by decide
  have hmonth : monthlySalary 150000 [] = 12500 := by
    unfold monthlySalary
    norm_num
  have main : ∀ (cfg : Config) (job : Job) (n : ℕ) (ns : List ℕ),
      salaryNumbers job.salary = n :: ns →
      monthlySalary n ns < (cfg.MIN_SALARY : ℚ) →
      salaryGate cfg job = false ∧ matches_criteria cfg job = false := by
    intro cfg job n ns h1 h2
    have hne : job.salary ≠ "" := by
      intro he
      rw [he] at h1
      rw [show salaryNumbers "" = [] by decide] at h1
      exact List.noConfusion h1
    have hns : pyLower job.salary ≠ "not specified" := by
      intro hl
      rw [lower_not_specified_no_numbers hl] at h1
      exact List.noConfusion h1
    have hg : salaryGate cfg job = false := by
      unfold salaryGate
      rw [if_pos ⟨hne, hns⟩, h1]
      show (if monthlySalary n ns < (cfg.MIN_SALARY : ℚ) then false else true) = false
      rw [if_pos h2]
    refine ⟨hg, ?_⟩
    rw [matches_eq, hg]
    simp
  have pass4000 : ∀ (cfg : Config) (job : Job),
      cfg.MIN_SALARY = 4000 → job.salary = "$150,000" → salaryGate cfg job = true := by
    intro cfg job hM hS
    unfold salaryGate
    rw [hS, hM]
    rw [if_pos (show ("$150,000" : String) ≠ "" ∧ pyLower "$150,000" ≠ "not specified"
      by decide)]
    rw [hnum]
    show (if monthlySalary 150000 [] < ((4000 : ℤ) : ℚ) then false else true) = true
    rw [hmonth]
    have hlt : ¬ ((12500 : ℚ) < ((4000 : ℤ) : ℚ)) := by norm_num
    rw [if_neg hlt]
  have fail13000 : ∀ (cfg : Config) (job : Job),
      cfg.MIN_SALARY = 13000 → job.salary = "$150,000" → matches_criteria cfg job = false := by
    intro cfg job hM hS
    have h2 : monthlySalary 150000 [] < (cfg.MIN_SALARY : ℚ) := by
      rw [hM, hmonth]
      norm_num
    exact (main cfg job 150000 [] (by rw [hS]; exact hnum) h2).2
  exact ⟨main, hnum, hmonth, pass4000, fail13000⟩

/-- Witness for C3: with MIN_SALARY 13000 a job whose salary reads
"$150,000" is rejected. -/
theorem claim_C3_witness :
    (⟨13000, ["software engineer"], ["ai"], "asia"⟩ : Config).MIN_SALARY = 13000 ∧
    ({ salary := "$150,000" } : Job).salary = "$150,000" ∧
    matches_criteria ⟨13000, ["software engineer"], ["ai"], "asia"⟩
      { salary := "$150,000" } = false :=
  ⟨rfl, rfl,
    claim_C3.2.2.2.2 ⟨13000, ["software engineer"], ["ai"], "asia"⟩
      { salary := "$150,000" } rfl rfl⟩

/-! ## Claims about the emit stage and renderers -/

/-- Claim C2 counterexample: when deduplication yields the empty list,
the sink receives only `found_jobs=false`; the renderers' no-jobs
sentence does not occur in the emitted output. -/
theorem claim_C2_counterexample :
    githubOutput "2026-10-12" (dedupe []) = "found_jobs=false\n" ∧
    strIn noJobsText (githubOutput "2026-10-12" (dedupe [])) = false := by
  constructor
  · rfl
  · decide

/-- Claim C2 (amended): when deduplication yields an empty job list
the run still reaches the emit stage, but it writes only the flag
`found_jobs=false` to the output sink — the renderers' no-jobs
sentence is not emitted, although both renderers do return that
sentence when applied to the empty list. -/
theorem claim_C2 (today : String) (jobs : List Job) (h : dedupe jobs = []) :
    githubOutput today (dedupe jobs) = "found_jobs=false\n" ∧
    formatEmailBody today (dedupe jobs) = noJobsText ∧
    formatEmailBodyHtml today (dedupe jobs) = noJobsHtml := by
  rw [h]
  refine ⟨?_, rfl, rfl⟩
  rfl

/-- Witness for C2: a run whose only record has an empty URL
deduplicates to the empty list. -/
theorem claim_C2_witness :
    dedupe [({ url := "" } : Job)] = [] ∧
    githubOutput "2026-10-12" (dedupe [({ url := "" } : Job)]) = "found_jobs=false\n" ∧
    formatEmailBody "2026-10-12" (dedupe [({ url := "" } : Job)]) = noJobsText ∧
    formatEmailBodyHtml "2026-10-12" (dedupe [({ url := "" } : Job)]) = noJobsHtml :=
  ⟨by decide,
    (claim_C2 "2026-10-12" [{ url := "" }] (by decide)).1,
    (claim_C2 "2026-10-12" [{ url := "" }] (by decide)).2.1,
    (claim_C2 "2026-10-12" [{ url := "" }] (by decide)).2.2⟩

/-- `String.join` over a cons. -/
theorem join_cons (s : String) (l : List String) :
    String.join (s :: l) = s ++ String.join l := by
  have key : ∀ (l : List String) (init : String),
      l.foldl (fun r t => r ++ t) init = init ++ String.join l := by
    intro l
    induction l with
    | nil => intro init; simp [String.join, String.append_empty]
    | cons t l ih =>
      intro init
      show l.foldl (fun r t => r ++ t) (init ++ t) = init ++ String.join (t :: l)
      rw [ih (init ++ t), String.append_assoc]
      congr 1
      have h1 : String.join (t :: l) = l.foldl (fun r t => r ++ t) ("" ++ t) := rfl
      rw [h1, String.empty_append, ih t]
  have h1 : String.join (s :: l) = l.foldl (fun r t => r ++ t) ("" ++ s) := rfl
  rw [h1, String.empty_append, key l s]


/-- Appending one plain-text section at a time from `init` produces
`init` followed by the joined sections. -/
theorem foldl_jobSection (l : List (ℕ × Job)) :
    ∀ init : String,
      l.foldl (fun body p => body ++ jobSection (p.1 + 1) p.2) init =
        init ++ String.join (l.map (fun p => jobSection (p.1 + 1) p.2)) := by
  induction l with
  | nil => intro init; simp [String.join, String.append_empty]
  | cons p l ih =>
    intro init
    show l.foldl _ (init ++ jobSection (p.1 + 1) p.2) = _
    rw [ih (init ++ jobSection (p.1 + 1) p.2), String.append_assoc, List.map_cons,
      join_cons]

/-- Appending one HTML section at a time from `init` produces `init`
followed by the joined sections. -/
theorem foldl_htmlSection (l : List (ℕ × Job)) :
    ∀ init : String,
      l.foldl (fun body p => body ++ htmlSection (p.1 + 1) p.2) init =
        init ++ String.join (l.map (fun p => htmlSection (p.1 + 1) p.2)) := by
  induction l with
  | nil => intro init; simp [String.join, String.append_empty]
  | cons p l ih =>
    intro init
    show l.foldl _ (init ++ htmlSection (p.1 + 1) p.2) = _
    rw [ih (init ++ htmlSection (p.1 + 1) p.2), String.append_assoc, List.map_cons,
      join_cons]

/-- A substring of `s` is a substring of `s ++ a`. -/
theorem strIn_append_right (a b s : String) (h : strIn b s = true) :
    strIn b (s ++ a) = true := by
  simp only [strIn, decide_eq_true_eq] at h ⊢
  obtain ⟨u, v, huv⟩ := h
  refine ⟨u, v ++ a.data, ?_⟩
  rw [String.data_append, ← huv]
  simp

/-- A string is a substring of anything followed by itself. -/
theorem strIn_append_self (a b : String) : strIn b (a ++ b) = true := by
  simp only [strIn, decide_eq_true_eq, String.data_append]
  exact ⟨a.data, [], by simp⟩

/-- `b ++ c` is a substring of `(a ++ b) ++ (c ++ x)`. -/
theorem strIn_mid (a b c x : String) : strIn (b ++ c) ((a ++ b) ++ (c ++ x)) = true := by
  simp only [strIn, decide_eq_true_eq, String.data_append]
  exact ⟨a.data, x.data, by simp⟩

/-- Claim C7: both renderers return the literal no-jobs sentence on
the empty list; on a non-empty list each emits its header (carrying
the day's date and the count) followed by one numbered section per job
in input order; every section contains the job's title, company,
location, salary, source, the posted date exactly when non-empty, the
description suffixed with an ellipsis, and the link. -/
theorem claim_C7 :
    (∀ today : String,
      formatEmailBody today [] = noJobsText ∧
      formatEmailBodyHtml today [] = noJobsHtml) ∧
    (∀ (today : String) (jobs : List Job), jobs ≠ [] →
      formatEmailBody today jobs =
        bodyHeader today jobs.length ++
          String.join (jobs.enum.map (fun p => jobSection (p.1 + 1) p.2)) ∧
      formatEmailBodyHtml today jobs =
        htmlHeader today jobs.length ++
          String.join (jobs.enum.map (fun p => htmlSection (p.1 + 1) p.2))) ∧
    (∀ (today : String) (n : ℕ),
      strIn today (bodyHeader today n) = true ∧
      strIn (toString n) (bodyHeader today n) = true ∧
      strIn today (htmlHeader today n) = true ∧
      strIn (toString n) (htmlHeader today n) = true) ∧
    (∀ (idx : ℕ) (job : Job),
      strIn job.title (jobSection idx job) = true ∧
      strIn job.company (jobSection idx job) = true ∧
      strIn job.location (jobSection idx job) = true ∧
      strIn job.salary (jobSection idx job) = true ∧
      strIn job.source (jobSection idx job) = true ∧
      strIn (job.description ++ "...") (jobSection idx job) = true ∧
      strIn job.url (jobSection idx job) = true ∧
      (job.posted_date ≠ "" →
        strIn ("**Posted:** " ++ job.posted_date ++ "\n") (jobSection idx job) = true) ∧
      (job.posted_date = "" →
        jobSection idx job =
          "## " ++ toString idx ++ ". " ++ job.title ++ "\n" ++
          "**Company:** " ++ job.company ++ "\n" ++
          "**Location:** " ++ job.location ++ "\n" ++
          "**Salary:** " ++ job.salary ++ "\n" ++
          "**Source:** " ++ job.source ++ "\n" ++
          "**Description:** " ++ job.description ++ "...\n" ++
          "**Link:** " ++ job.url ++ "\n\n" ++
          "---\n\n")) ∧
    (∀ (idx : ℕ) (job : Job),
      strIn job.title (htmlSection idx job) = true ∧
      strIn job.company (htmlSection idx job) = true ∧
      strIn job.location (htmlSection idx job) = true ∧
      strIn job.salary (htmlSection idx job) = true ∧
      strIn job.source (htmlSection idx job) = true ∧
      strIn (job.description ++ "...") (htmlSection idx job) = true ∧
      strIn job.url (htmlSection idx job) = true ∧
      (job.posted_date ≠ "" →
        strIn ("<p><strong>Posted:</strong> " ++ job.posted_date ++ "</p>\n")
          (htmlSection idx job) = true) ∧
      (job.posted_date = "" →
        htmlSection idx job =
          "<h2>" ++ toString idx ++ ". " ++ job.title ++ "</h2>\n" ++
          "<p><strong>Company:</strong> " ++ job.company ++ "</p>\n" ++
          "<p><strong>Location:</strong> " ++ job.location ++ "</p>\n" ++
          "<p><strong>Salary:</strong> " ++ job.salary ++ "</p>\n" ++
          "<p><strong>Source:</strong> " ++ job.source ++ "</p>\n" ++
          "<p><strong>Description:</strong> " ++ job.description ++ "...</p>\n" ++
          "<p><a href=\x27" ++ job.url ++ "\x27>View Full Job</a></p>\n" ++
          "<hr>\n")) := by
  refine ⟨fun today => ⟨rfl, rfl⟩, ?_, ?_, ?_, ?_⟩
  · intro today jobs hne
    constructor
    · unfold formatEmailBody
      rw [if_neg hne]
      exact foldl_jobSection jobs.enum (bodyHeader today jobs.length)
    · unfold formatEmailBodyHtml
      rw [if_neg hne]
      exact foldl_htmlSection jobs.enum (htmlHeader today jobs.length)
  · intro today n
    refine ⟨?_, ?_, ?_, ?_⟩
    · unfold bodyHeader
      iterate 2 apply strIn_append_right
      exact strIn_append_self _ _
    · unfold bodyHeader
      iterate 4 apply strIn_append_right
      exact strIn_append_self _ _
    · unfold htmlHeader
      iterate 2 apply strIn_append_right
      exact strIn_append_self _ _
    · unfold htmlHeader
      iterate 4 apply strIn_append_right
      exact strIn_append_self _ _
  · intro idx job
    refine ⟨?_, ?_, ?_, ?_, ?_, ?_, ?_, ?_, ?_⟩
    · unfold jobSection
      iterate 21 apply strIn_append_right
      exact strIn_append_self _ _
    · unfold jobSection
      iterate 18 apply strIn_append_right
      exact strIn_append_self _ _
    · unfold jobSection
      iterate 15 apply strIn_append_right
      exact strIn_append_self _ _
    · unfold jobSection
      iterate 12 apply strIn_append_right
      exact strIn_append_self _ _
    · unfold jobSection
      iterate 9 apply strIn_append_right
      exact strIn_append_self _ _
    · unfold jobSection
      rw [show ("...\n" : String) = "..." ++ "\n" from rfl]
      iterate 4 apply strIn_append_right
      exact strIn_mid _ _ _ _
    · unfold jobSection
      iterate 2 apply strIn_append_right
      exact strIn_append_self _ _
    · intro hp
      unfold jobSection
      rw [if_pos hp]
      iterate 7 apply strIn_append_right
      exact strIn_append_self _ _
    · intro hp
      simp [jobSection, hp, String.append_empty]
  · intro idx job
    refine ⟨?_, ?_, ?_, ?_, ?_, ?_, ?_, ?_, ?_⟩
    · unfold htmlSection
      iterate 21 apply strIn_append_right
      exact strIn_append_self _ _
    · unfold htmlSection
      iterate 18 apply strIn_append_right
      exact strIn_append_self _ _
    · unfold htmlSection
      iterate 15 apply strIn_append_right
      exact strIn_append_self _ _
    · unfold htmlSection
      iterate 12 apply strIn_append_right
      exact strIn_append_self _ _
    · unfold htmlSection
      iterate 9 apply strIn_append_right
      exact strIn_append_self _ _
    · unfold htmlSection
      rw [show ("...</p>\n" : String) = "..." ++ "</p>\n" from rfl]
      iterate 4 apply strIn_append_right
      exact strIn_mid _ _ _ _
    · unfold htmlSection
      iterate 2 apply strIn_append_right
      exact strIn_append_self _ _
    · intro hp
      unfold htmlSection
      rw [if_pos hp]
      iterate 7 apply strIn_append_right
      exact strIn_append_self _ _
    · intro hp
      simp [htmlSection, hp, String.append_empty]

/-- Witness for C7: a one-job list with a non-empty posted date. -/
theorem claim_C7_witness :
    (([({ posted_date := "2026-01-01" } : Job)] : List Job) ≠ []) ∧
    (({ posted_date := "2026-01-01" } : Job).posted_date ≠ "") ∧
    formatEmailBody "2026-10-12" [({ posted_date := "2026-01-01" } : Job)] =
      bodyHeader "2026-10-12"
          ([({ posted_date := "2026-01-01" } : Job)] : List Job).length ++
        String.join (([({ posted_date := "2026-01-01" } : Job)] : List Job).enum.map
          (fun p => jobSection (p.1 + 1) p.2)) ∧
    strIn ("**Posted:** " ++ ({ posted_date := "2026-01-01" } : Job).posted_date ++ "\n")
      (jobSection 1 ({ posted_date := "2026-01-01" } : Job)) = true :=
  ⟨by decide, by decide,
    (claim_C7.2.1 "2026-10-12" [{ posted_date := "2026-01-01" }] (by decide)).1,
    (claim_C7.2.2.2.1 1 { posted_date := "2026-01-01" }).2.2.2.2.2.2.2.1 (by decide)⟩

/-! ## Claims about deduplication -/

/-- Replacing every record keyed `j.url` by `j` makes `j` the lookup
result at `j.url`, provided the key was present. -/
theorem find_map_replace (j : Job) :
    ∀ l : List Job,
      (l.map (fun k => if k.url == j.url then j else k)).find?
          (fun k => k.url == j.url) =
        if l.any (fun k => k.url == j.url) then some j else none := by
  intro l
  induction l with
  | nil => rfl
  | cons k t ih =>
    by_cases hk : (k.url == j.url) = true
    · simp only [List.map_cons, if_pos hk]
      rw [List.find?_cons_of_pos _ (by simp), List.any_cons, hk]
      simp
    · have hk' : (k.url == j.url) = false := by simpa using hk
      simp only [List.map_cons, if_neg hk]
      rw [List.find?_cons_of_neg _ (by simp [hk']), List.any_cons, hk']
      simpa using ih

/-- Replacing records keyed `j.url` does not change lookups at other
keys. -/
theorem find_map_other (j : Job) (u : String) (hu : (j.url == u) = false) :
    ∀ l : List Job,
      (l.map (fun k => if k.url == j.url then j else k)).find? (fun k => k.url == u) =
        l.find? (fun k => k.url == u) := by
  intro l
  induction l with
  | nil => rfl
  | cons k t ih =>
    by_cases hk : (k.url == j.url) = true
    · have hku : (k.url == u) = false := by
        have : k.url = j.url := beq_iff_eq.mp hk
        rw [this]
        exact hu
      simp only [List.map_cons, if_pos hk]
      rw [List.find?_cons_of_neg _ (by simp [hu]), List.find?_cons_of_neg _ (by simp [hku])]
      exact ih
    · simp only [List.map_cons, if_neg hk]
      by_cases hku : (k.url == u) = true
      · have e1 : List.find? (fun q : Job => q.url == u)
            (k :: t.map (fun q => if q.url == j.url then j else q)) = some k :=
          List.find?_cons_of_pos _ hku
        have e2 : List.find? (fun q : Job => q.url == u) (k :: t) = some k :=
          List.find?_cons_of_pos _ hku
        rw [e1, e2]
      · have hku' : (k.url == u) = false := by simpa using hku
        rw [List.find?_cons_of_neg _ (by simp [hku']), List.find?_cons_of_neg _ (by simp [hku'])]
        exact ih

/-- Lookup after one dict insertion: the inserted record wins at its
own key, other keys are unchanged. -/
theorem findURL_insert (acc : List Job) (j : Job) (u : String) :
    findURL (insertURL acc j) u = if (j.url == u) = true then some j else findURL acc u := by
  unfold insertURL findURL
  by_cases hany : acc.any (fun k => k.url == j.url) = true
  · rw [if_pos hany]
    by_cases hu : (j.url == u) = true
    · have : j.url = u := beq_iff_eq.mp hu
      subst this
      rw [if_pos hu, find_map_replace j acc, if_pos hany]
    · have hu' : (j.url == u) = false := by simpa using hu
      rw [if_neg hu, find_map_other j u hu' acc]
  · have hany' : acc.any (fun k => k.url == j.url) = false := by simpa using hany
    rw [if_neg hany, List.find?_append]
    by_cases hu : (j.url == u) = true
    · have hja : acc.find? (fun k => k.url == u) = none := by
        rw [List.find?_eq_none]
        intro k hk hku
        have h1 : k.url = u := beq_iff_eq.mp (by simpa using hku)
        have h2 : j.url = u := beq_iff_eq.mp hu
        have : acc.any (fun k => k.url == j.url) = true := by
          rw [List.any_eq_true]
          exact ⟨k, hk, by simp [h1, h2]⟩
        rw [this] at hany'
        cases hany'
      rw [if_pos hu, hja]
      simp [List.find?, hu]
    · have hu' : (j.url == u) = false := by simpa using hu
      rw [if_neg hu]
      have : List.find? (fun k => k.url == u) [j] = none := by
        simp [List.find?, hu']
      rw [this]
      cases acc.find? (fun k => k.url == u) <;> rfl

/-- One dict insertion preserves the invariants: all stored URLs
non-empty and pairwise distinct. -/
theorem insertURL_inv (acc : List Job) (j : Job)
    (h1 : ∀ k ∈ acc, k.url ≠ "") (h2 : (acc.map (fun k => k.url)).Nodup)
    (hj : j.url ≠ "") :
    (∀ k ∈ insertURL acc j, k.url ≠ "") ∧
    ((insertURL acc j).map (fun k => k.url)).Nodup := by
  unfold insertURL
  by_cases hany : acc.any (fun k => k.url == j.url) = true
  · rw [if_pos hany]
    constructor
    · intro k hk
      rcases List.mem_map.1 hk with ⟨q, hq, hqe⟩
      by_cases hq' : (q.url == j.url) = true
      · rw [if_pos hq'] at hqe
        rw [← hqe]
        exact hj
      · rw [if_neg hq'] at hqe
        rw [← hqe]
        exact h1 q hq
    · have hsame : (acc.map (fun k => if k.url == j.url then j else k)).map
          (fun k => k.url) = acc.map (fun k => k.url) := by
        rw [List.map_map]
        apply List.map_congr_left
        intro q _
        by_cases hq' : (q.url == j.url) = true
        · show (if (q.url == j.url) = true then j else q).url = q.url
          rw [if_pos hq']
          exact (beq_iff_eq.mp hq').symm
        · show (if (q.url == j.url) = true then j else q).url = q.url
          rw [if_neg hq']
      rw [hsame]
      exact h2
  · rw [if_neg hany]
    constructor
    · intro k hk
      rcases List.mem_append.1 hk with hk | hk
      · exact h1 k hk
      · simp at hk
        rw [hk]
        exact hj
    · rw [List.map_append, List.nodup_append]
      refine ⟨h2, by simp, ?_⟩
      intro u hu hu2
      simp at hu2
      rcases List.mem_map.1 hu with ⟨q, hq, hqe⟩
      apply hany
      rw [List.any_eq_true]
      refine ⟨q, hq, ?_⟩
      rw [show q.url = j.url by rw [hqe, hu2]]
      simp

/-- The last record keyed `u` in `j :: l`: the last one in `l` when
present, otherwise `j` itself when it matches. -/
theorem lastWithURL_cons (j : Job) (l : List Job) (u : String) :
    lastWithURL (j :: l) u =
      match lastWithURL l u with
      | some k => some k
      | none => if (j.url == u) = true then some j else none := by
  unfold lastWithURL
  by_cases hj : (j.url == u) = true
  · have ef : List.filter (fun k : Job => k.url == u) (j :: l) =
        j :: List.filter (fun k : Job => k.url == u) l := by
      simp [List.filter_cons, hj]
    rw [ef]
    cases hfl : (l.filter (fun k => k.url == u)).getLast? with
    | none =>
      have he : l.filter (fun k : Job => k.url == u) = [] :=
        List.getLast?_eq_none_iff.mp hfl
      rw [he]
      simp [hj]
    | some k =>
      rw [List.getLast?_cons, hfl]
      simp
  · have hj2 : (j.url == u) = false := by simpa using hj
    have ef : List.filter (fun k : Job => k.url == u) (j :: l) =
        List.filter (fun k : Job => k.url == u) l := by
      simp [List.filter_cons, hj2]
    rw [ef]
    cases hfl : (l.filter (fun k => k.url == u)).getLast? with
    | none => simp [hj2]
    | some k => simp

/-- Invariants and lookup behaviour of the whole dict-building fold:
all stored URLs non-empty and distinct, and lookup returns the last
input record with the key (falling back to the accumulator). -/
theorem dedupe_loop (l : List Job) :
    ∀ acc : List Job,
    (∀ k ∈ acc, k.url ≠ "") → ((acc.map (fun k => k.url)).Nodup) →
    (∀ k ∈ l, k.url ≠ "") →
    (∀ k ∈ l.foldl insertURL acc, k.url ≠ "") ∧
    ((l.foldl insertURL acc).map (fun k => k.url)).Nodup ∧
    (∀ u, findURL (l.foldl insertURL acc) u =
      match lastWithURL l u with
      | some k => some k
      | none => findURL acc u) := by
  induction l with
  | nil =>
    intro acc h1 h2 _
    refine ⟨h1, h2, ?_⟩
    intro u
    rfl
  | cons j t ih =>
    intro acc h1 h2 h3
    have hj : j.url ≠ "" := h3 j (List.mem_cons_self j t)
    have h3' : ∀ k ∈ t, k.url ≠ "" := fun k hk => h3 k (List.mem_cons_of_mem j hk)
    obtain ⟨i1, i2⟩ := insertURL_inv acc j h1 h2 hj
    obtain ⟨g1, g2, g3⟩ := ih (insertURL acc j) i1 i2 h3'
    refine ⟨g1, g2, ?_⟩
    intro u
    show findURL (t.foldl insertURL (insertURL acc j)) u = _
    rw [g3 u, lastWithURL_cons j t u, findURL_insert acc j u]
    cases hlt : lastWithURL t u with
    | some k => rfl
    | none =>
      by_cases hju : (j.url == u) = true
      · simp [hju]
      · simp [hju]

/-- With pairwise-distinct URLs, membership determines the lookup. -/
theorem findURL_of_mem (l : List Job) (hnd : (l.map (fun k => k.url)).Nodup)
    (j : Job) (hj : j ∈ l) : findURL l j.url = some j := by
  induction l with
  | nil => cases hj
  | cons k t ih =>
    rw [List.map_cons] at hnd
    obtain ⟨hnd1, hnd2⟩ := List.nodup_cons.mp hnd
    rcases List.mem_cons.1 hj with h | h
    · subst h
      unfold findURL
      have e : List.find? (fun q : Job => q.url == j.url) (j :: t) = some j :=
        List.find?_cons_of_pos _ (by simp)
      rw [e]
    · have hk : (k.url == j.url) = false := by
        by_contra hc
        have hc' : k.url = j.url := beq_iff_eq.mp (by simpa using hc)
        apply hnd1
        rw [hc']
        exact List.mem_map_of_mem _ h
      unfold findURL
      have e : List.find? (fun q : Job => q.url == j.url) (k :: t) =
          List.find? (fun q : Job => q.url == j.url) t :=
        List.find?_cons_of_neg _ (by simp [hk])
      rw [e]
      exact ih hnd2 h

/-- For a non-empty key, restricting to non-empty-URL records does not
change the last record with that key. -/
theorem lastWithURL_filter (jobs : List Job) (u : String) (hu : u ≠ "") :
    lastWithURL (jobs.filter (fun j => j.url ≠ "")) u = lastWithURL jobs u := by
  unfold lastWithURL
  rw [List.filter_filter]
  congr 1
  apply List.filter_congr
  intro k _
  by_cases hk : (k.url == u) = true
  · have he : k.url = u := beq_iff_eq.mp hk
    simp [hk, he, hu]
  · have hk' : (k.url == u) = false := by simpa using hk
    simp [hk']

/-- Claim C6: deduplication drops every empty-URL record; each output
record carries a distinct non-empty URL and is the LAST input record
with that URL; every non-empty input URL is represented in the
output. -/
theorem claim_C6 (jobs : List Job) :
    (∀ j ∈ dedupe jobs, j.url ≠ "") ∧
    ((dedupe jobs).map (fun k => k.url)).Nodup ∧
    (∀ j ∈ dedupe jobs, lastWithURL jobs j.url = some j) ∧
    (∀ j ∈ jobs, j.url ≠ "" → ∃ k ∈ dedupe jobs, k.url = j.url) := by
  have hfil : ∀ k ∈ jobs.filter (fun j => j.url ≠ ""), k.url ≠ "" := by
    intro k hk
    have := (List.mem_filter.1 hk).2
    simpa using this
  obtain ⟨d1, d2, d3⟩ := dedupe_loop (jobs.filter (fun j => j.url ≠ "")) []
    (by intro k hk; cases hk) (by simp) hfil
  have hdd : (jobs.filter (fun j => j.url ≠ "")).foldl insertURL [] = dedupe jobs := rfl
  rw [hdd] at d1 d2 d3
  refine ⟨d1, d2, ?_, ?_⟩
  · intro j hj
    have hne : j.url ≠ "" := d1 j hj
    have hfind : findURL (dedupe jobs) j.url = some j := findURL_of_mem _ d2 j hj
    have hd := d3 j.url
    rw [hfind] at hd
    cases hlt : lastWithURL (jobs.filter (fun j => j.url ≠ "")) j.url with
    | none =>
      rw [hlt] at hd
      simp [findURL] at hd
    | some k =>
      rw [hlt] at hd
      simp at hd
      rw [← lastWithURL_filter jobs j.url hne, hlt, hd]
  · intro j hj hne
    have hjf : j ∈ jobs.filter (fun q => q.url ≠ "") := by
      rw [List.mem_filter]
      exact ⟨hj, by simpa using hne⟩
    have hmemf : j ∈ (jobs.filter (fun q => q.url ≠ "")).filter
        (fun k => k.url == j.url) := by
      rw [List.mem_filter]
      exact ⟨hjf, by simp⟩
    cases hlt : lastWithURL (jobs.filter (fun q => q.url ≠ "")) j.url with
    | none =>
      unfold lastWithURL at hlt
      rw [List.getLast?_eq_none_iff] at hlt
      rw [hlt] at hmemf
      cases hmemf
    | some k =>
      have hd := d3 j.url
      rw [hlt] at hd
      simp only [] at hd
      unfold findURL at hd
      have hkmem : k ∈ dedupe jobs := List.mem_of_find?_eq_some hd
      have hku := List.find?_some hd
      simp at hku
      exact ⟨k, hkmem, hku⟩

/-- Witness for C6: records `a` and `b` share URL "u", `x` has an
empty URL; the output keeps exactly the later record `b`. -/
theorem claim_C6_witness :
    (({ url := "u", title := "b" } : Job) ∈
      dedupe [({ url := "u", title := "a" } : Job), { url := "" },
        { url := "u", title := "b" }]) ∧
    lastWithURL
      [({ url := "u", title := "a" } : Job), { url := "" }, { url := "u", title := "b" }]
      ({ url := "u", title := "b" } : Job).url = some { url := "u", title := "b" } ∧
    (({ url := "u", title := "a" } : Job) ∈
      ([({ url := "u", title := "a" } : Job), { url := "" },
        { url := "u", title := "b" }] : List Job)) ∧
    (∃ k ∈ dedupe [({ url := "u", title := "a" } : Job), { url := "" },
        { url := "u", title := "b" }],
      k.url = ({ url := "u", title := "a" } : Job).url) :=
  ⟨by decide,
    (claim_C6 [{ url := "u", title := "a" }, { url := "" },
      { url := "u", title := "b" }]).2.2.1 { url := "u", title := "b" } (by decide),
    by decide,
    (claim_C6 [{ url := "u", title := "a" }, { url := "" },
      { url := "u", title := "b" }]).2.2.2 { url := "u", title := "a" } (by decide)
      (by decide)⟩

/-! ## Claims about the text normalizer -/

/-- A split with a non-empty current field never returns no fields. -/
theorem pySplitAux_ne_nil (l : List Char) :
    ∀ acc : List Char, acc ≠ [] → pySplitAux acc l ≠ [] := by
  induction l with
  | nil =>
    intro acc hacc
    unfold pySplitAux
    rw [if_neg hacc]
    simp
  | cons c rest ih =>
    intro acc hacc
    unfold pySplitAux
    by_cases hw : c.isWhitespace
    · rw [if_pos hw, if_neg hacc]
      simp
    · rw [if_neg hw]
      exact ih (c :: acc) (List.cons_ne_nil c acc)

/-- The split is empty exactly when the input is all whitespace. -/
theorem pySplitAux_nil_iff (l : List Char) :
    pySplitAux [] l = [] ↔ l.dropWhile Char.isWhitespace = [] := by
  induction l with
  | nil => simp [pySplitAux]
  | cons c rest ih =>
    unfold pySplitAux
    by_cases hw : c.isWhitespace
    · rw [if_pos hw, if_pos rfl, List.nil_append, List.dropWhile_cons_of_pos hw]
      exact ih
    · rw [if_neg hw, List.dropWhile_cons_of_neg hw]
      constructor
      · intro h
        exact absurd h (pySplitAux_ne_nil rest [c] (List.cons_ne_nil c []))
      · intro h
        exact absurd h (List.cons_ne_nil c rest)

/-- `tcSpace` emits one space and continues with the next word, or
nothing when only whitespace remains. -/
theorem tcSpace_eq (l : List Char) :
    tcSpace l =
      if l.dropWhile Char.isWhitespace = [] then []
      else ' ' :: tcWord (l.dropWhile Char.isWhitespace) := by
  induction l with
  | nil => simp [tcSpace]
  | cons c rest ih =>
    by_cases hw : c.isWhitespace
    · rw [show tcSpace (c :: rest) = if c.isWhitespace then tcSpace rest
          else ' ' :: c :: tcWord rest from rfl,
        if_pos hw, List.dropWhile_cons_of_pos hw]
      exact ih
    · rw [show tcSpace (c :: rest) = if c.isWhitespace then tcSpace rest
          else ' ' :: c :: tcWord rest from rfl,
        if_neg hw, List.dropWhile_cons_of_neg hw]
      rw [if_neg (List.cons_ne_nil c rest)]
      rw [show tcWord (c :: rest) = if c.isWhitespace then tcSpace rest
          else c :: tcWord rest from rfl, if_neg hw]

/-- `' '.join` over a cons of fields. -/
theorem joinSp_cons (w : List Char) (ws : List (List Char)) :
    joinSp (w :: ws) = if ws = [] then w else w ++ ' ' :: joinSp ws := by
  cases ws with
  | nil => simp [joinSp]
  | cons x t => simp [joinSp]

/-- `' '.join(split())` equals the trim-and-collapse automaton: the
two parts of the simultaneous induction, for an empty and a non-empty
current field. -/
theorem joinSp_pySplitAux (l : List Char) :
    (joinSp (pySplitAux [] l) = tcWord (l.dropWhile Char.isWhitespace)) ∧
    (∀ acc : List Char, acc ≠ [] →
      joinSp (pySplitAux acc l) = acc.reverse ++ tcWord l) := by
  induction l with
  | nil =>
    constructor
    · rfl
    · intro acc hacc
      unfold pySplitAux
      rw [if_neg hacc]
      show joinSp [acc.reverse] = acc.reverse ++ tcWord []
      rw [show tcWord [] = [] from rfl, List.append_nil]
      rfl
  | cons c rest ih =>
    constructor
    · by_cases hw : c.isWhitespace
      · show joinSp (pySplitAux [] (c :: rest)) = _
        unfold pySplitAux
        rw [if_pos hw, if_pos rfl, List.nil_append, List.dropWhile_cons_of_pos hw]
        exact ih.1
      · show joinSp (pySplitAux [] (c :: rest)) = _
        unfold pySplitAux
        rw [if_neg hw, List.dropWhile_cons_of_neg hw]
        rw [ih.2 [c] (List.cons_ne_nil c [])]
        rw [show tcWord (c :: rest) = if c.isWhitespace then tcSpace rest
          else c :: tcWord rest from rfl, if_neg hw]
        rfl
    · intro acc hacc
      by_cases hw : c.isWhitespace
      · show joinSp (pySplitAux acc (c :: rest)) = _
        unfold pySplitAux
        rw [if_pos hw, if_neg hacc]
        rw [show ([acc.reverse] ++ pySplitAux [] rest : List (List Char)) =
          acc.reverse :: pySplitAux [] rest from rfl]
        rw [joinSp_cons]
        rw [show tcWord (c :: rest) = if c.isWhitespace then tcSpace rest
          else c :: tcWord rest from rfl, if_pos hw]
        rw [tcSpace_eq rest]
        by_cases hp : pySplitAux [] rest = []
        · rw [if_pos hp, if_pos ((pySplitAux_nil_iff rest).mp hp), List.append_nil]
        · rw [if_neg hp,
            if_neg (fun hd => hp ((pySplitAux_nil_iff rest).mpr hd))]
          rw [ih.1]
      · show joinSp (pySplitAux acc (c :: rest)) = _
        unfold pySplitAux
        rw [if_neg hw]
        rw [ih.2 (c :: acc) (List.cons_ne_nil c acc)]
        rw [show tcWord (c :: rest) = if c.isWhitespace then tcSpace rest
          else c :: tcWord rest from rfl, if_neg hw]
        rw [List.reverse_cons, List.append_assoc]
        rfl

/-- Claim C9 counterexample: on input `" a"`, collapsing every
whitespace run to a single space (the claim's wording, `spec_normalize`)
yields `" a"`, but `clean_text` returns `"a"` — the leading run is
removed, not collapsed to a space. -/
theorem claim_C9_counterexample :
    spec_normalize " a" = " a" ∧ clean_text " a" = "a" ∧
    clean_text " a" ≠ spec_normalize " a" := by
  refine ⟨by decide, by decide, by decide⟩

/-- Claim C9 (amended): `clean_text` returns the empty string for
empty (falsy) input; otherwise it collapses each whitespace run
BETWEEN words to one space, removes leading and trailing whitespace
entirely, and then removes the HTML-tag substrings — the trim-collapse
automaton composed with tag removal. -/
theorem claim_C9 (s : String) :
    clean_text s =
      if s = "" then "" else String.mk (removeTags (trimCollapse s.data)) := by
  unfold clean_text trimCollapse
  by_cases h : s = ""
  · rw [if_pos h, if_pos h]
  · rw [if_neg h, if_neg h]
    unfold pySplit
    rw [(joinSp_pySplitAux s.data).1]
